import Mathlib

/-!
Verification of the post editing and revisioning subsystem of a personal
publishing platform: the server-side post store operations (slug handling,
publish lifecycle, version retention, preview tokens) and the client-side
save coordinator (dirty tracking, save sequencing, stale-response handling).

The definitions below are a shallow embedding of the TypeScript sources:
`src/lib/firebase/admin.ts` (server store operations), the post page
resolver (`src/app/posts/[slug]/page.tsx`) and the post editor component
(save coordinator).  Firestore server timestamps are modelled as `Nat`
values supplied by the caller; Firestore auto-generated document ids are
modelled as `String` values supplied by the caller.  Fallible operations
return `Except String _` mirroring the `success`/`error` result shape.
-/

namespace MyCigars

/-- Publication status of a post, `status ∈ {draft, published}`. -/
inductive Status where
  | draft
  | published
deriving DecidableEq, Repr

/-- The editable field set of a post, as carried by the editor and by save
requests (`PostData` in the editor source). -/
structure PostData where
  title : String
  slug : String
  excerpt : String
  content : String
  status : Status
deriving DecidableEq, Repr

/-- Preview capability stored on a post (`preview` map field). -/
structure PreviewCap where
  token : Option String
  enabled : Bool
  createdAt : Option Nat
deriving DecidableEq, Repr

/-- A post document (`FirestorePost` plus the `preview` field). -/
structure Post where
  id : String
  title : String
  slug : String
  oldSlugs : List String
  excerpt : String
  content : String
  status : Status
  publishedAt : Option Nat
  createdAt : Option Nat
  updatedAt : Option Nat
  preview : Option PreviewCap
deriving DecidableEq, Repr

/-- A version snapshot document in the `versions` subcollection of a post. -/
structure Version where
  id : String
  title : String
  slug : String
  excerpt : String
  content : String
  status : Status
  createdAt : Nat
  note : Option String
deriving DecidableEq, Repr

/-- The content store: the `posts` collection and, for each post id, its
`versions` subcollection (association list keyed by post id). -/
structure Store where
  posts : List Post
  versions : List (String × List Version)
deriving DecidableEq, Repr

/-! ### Slug normalization (`normalizeSlug` in admin.ts)

The source lowercases, trims whitespace, replaces every maximal run of
characters outside `[a-z0-9]` by a single hyphen, then strips one leading
and one trailing hyphen. -/

/-- Character class `[a-z0-9]` used by the slug regex. -/
def isSlugChar (c : Char) : Bool :=
  (('a' ≤ c) && (c ≤ 'z')) || (('0' ≤ c) && (c ≤ '9'))

/-- Collapse each maximal run of non-`[a-z0-9]` characters to a single
hyphen; the flag records whether the previous character was part of such a
run. -/
def collapseRuns : Bool → List Char → List Char
  | _, [] => []
  | inRun, c :: cs =>
    if isSlugChar c then c :: collapseRuns false cs
    else if inRun then collapseRuns true cs
    else '-' :: collapseRuns true cs

/-- Strip a single leading hyphen (one half of the final hyphen-trimming
replace; applied to the reversed list it strips the trailing one). -/
def dropLeadHyphen : List Char → List Char
  | '-' :: cs => cs
  | cs => cs

/-- `normalizeSlug` from admin.ts. -/
def normalizeSlug (s : String) : String :=
  let lowered := s.data.map Char.toLower
  let trimmed :=
    ((lowered.dropWhile (fun c => c.isWhitespace)).reverse.dropWhile
      (fun c => c.isWhitespace)).reverse
  let collapsed := collapseRuns false trimmed
  String.mk ((dropLeadHyphen (dropLeadHyphen collapsed.reverse).reverse))

/-! ### Store lookup helpers

Firestore queries with `limit(1)` are modelled as first-match search over
the posts collection; document reads by id likewise.  Ids of documents in a
Firestore collection are unique by construction. -/

/-- Read a post document by id (a direct document get on the posts
collection). -/
def findPost : List Post → String → Option Post
  | [], _ => none
  | p :: ps, pid => if p.id = pid then some p else findPost ps pid

/-- Query for the first post whose live slug equals `s`, any status
(used by `isSlugAvailable` and `getPostBySlugAdmin`). -/
def findBySlugAny : List Post → String → Option Post
  | [], _ => none
  | p :: ps, s => if p.slug = s then some p else findBySlugAny ps s

/-- Query for the first published post whose live slug equals `s`
(used by `getPostBySlug`). -/
def findBySlugPub : List Post → String → Option Post
  | [], _ => none
  | p :: ps, s =>
    if p.slug = s ∧ p.status = Status.published then some p
    else findBySlugPub ps s

/-- Query for the first published post whose `oldSlugs` array contains `s`
(used by `getPostByOldSlug`). -/
def findByOldSlugPub : List Post → String → Option Post
  | [], _ => none
  | p :: ps, s =>
    if s ∈ p.oldSlugs ∧ p.status = Status.published then some p
    else findByOldSlugPub ps s

/-- Whether a post matches the preview query
(token equality conjoined with the enabled flag): a missing `preview`
field or a null token never matches. -/
def previewMatches (p : Post) (t : String) : Prop :=
  match p.preview with
  | some pv => pv.token = some t ∧ pv.enabled = true
  | none => False

instance (p : Post) (t : String) : Decidable (previewMatches p t) := by
  unfold previewMatches
  cases p.preview with
  | none => exact inferInstanceAs (Decidable False)
  | some pv => exact inferInstanceAs (Decidable (_ ∧ _))

/-- First post matching the preview-token query. -/
def findByPreview : List Post → String → Option Post
  | [], _ => none
  | p :: ps, t => if previewMatches p t then some p else findByPreview ps t

/-- Replace the document with the given id (`docRef.update(...)`); documents
with a different id are untouched. -/
def updatePostDoc (st : Store) (pid : String) (f : Post → Post) : Store :=
  { st with posts := st.posts.map (fun p => if p.id = pid then f p else p) }

/-- Versions subcollection of a post (empty when never written). -/
def getVers : List (String × List Version) → String → List Version
  | [], _ => []
  | (k, vs) :: rest, pid => if k = pid then vs else getVers rest pid

/-- Write back the versions subcollection of a post. -/
def setVers : List (String × List Version) → String → List Version → List (String × List Version)
  | [], pid, vs => [(pid, vs)]
  | (k, old) :: rest, pid, vs =>
    if k = pid then (k, vs) :: rest else (k, old) :: setVers rest pid vs

/-! ### Public read path (admin.ts query functions and the post page) -/

/-- `getPostBySlug`: published post whose current slug equals the
normalized input. -/
def getPostBySlug (st : Store) (slug : String) : Option Post :=
  findBySlugPub st.posts (normalizeSlug slug)

/-- `getPostByOldSlug`: published post whose `oldSlugs` array contains the
normalized input. -/
def getPostByOldSlug (st : Store) (slug : String) : Option Post :=
  findByOldSlugPub st.posts (normalizeSlug slug)

/-- Outcome of `resolvePost` in the post page: content hit, redirect to the
current slug of the post, or not found. -/
inductive ResolveResult where
  | content (p : Post)
  | redirect (p : Post)
  | notFound
deriving DecidableEq, Repr

/-- `resolvePost` from `src/app/posts/[slug]/page.tsx`: current slug first,
then old slugs (tagged as a permanent redirect to `p.slug`), else
not-found. -/
def resolvePost (st : Store) (slug : String) : ResolveResult :=
  match getPostBySlug st slug with
  | some p => ResolveResult.content p
  | none =>
    match getPostByOldSlug st slug with
    | some p => ResolveResult.redirect p
    | none => ResolveResult.notFound

/-! ### Post CRUD (admin.ts) -/

/-- `isSlugAvailable`: no post holds the normalized slug as its live slug,
except possibly the excluded post itself. -/
def isSlugAvailable (st : Store) (slug : String) (excludePostId : Option String) : Bool :=
  match findBySlugAny st.posts (normalizeSlug slug) with
  | none => true
  | some p =>
    match excludePostId with
    | some eid => p.id == eid
    | none => false

/-- `createPost`: reject a taken live slug, otherwise add the post with the
normalized slug, empty `oldSlugs`, and `publishedAt` set only when created
as published.  `now` models the server timestamp, `newId` the id assigned
by the store. -/
def createPost (st : Store) (d : PostData) (now : Nat) (newId : String) :
    Except String (Store × String) :=
  let normalizedSlug := normalizeSlug d.slug
  if isSlugAvailable st normalizedSlug none then
    let p : Post :=
      { id := newId, title := d.title, slug := normalizedSlug, oldSlugs := [],
        excerpt := d.excerpt, content := d.content, status := d.status,
        publishedAt := if d.status = Status.published then some now else none,
        createdAt := some now, updatedAt := some now, preview := none }
    Except.ok ({ st with posts := st.posts ++ [p] }, newId)
  else Except.error "A post with this slug already exists"

/-- Partial field set accepted by `updatePost`. -/
structure UpdateData where
  title : Option String
  slug : Option String
  excerpt : Option String
  content : Option String
  status : Option Status
deriving DecidableEq, Repr

/-- The document write performed by `updatePost` once the checks passed:
provided fields overwrite, `updatedAt` is set, `publishedAt` follows the
status logic of admin.ts lines 494-500 (set on a transition into
`published`, cleared on `draft`, else carried over), and when the slug is
changing (`newSlug = some ns`) the previous live slug is appended to
`oldSlugs` unless empty or already present. -/
def commitUpdate (st : Store) (pid : String) (cur : Post) (d : UpdateData)
    (now : Nat) (newSlug : Option String) : Store :=
  let publishedAt : Option Nat :=
    if d.status = some Status.published ∧ cur.status ≠ Status.published then some now
    else if d.status = some Status.draft then none
    else cur.publishedAt
  let updated : Post :=
    { cur with
      title := d.title.getD cur.title,
      excerpt := d.excerpt.getD cur.excerpt,
      content := d.content.getD cur.content,
      status := d.status.getD cur.status,
      publishedAt := publishedAt,
      updatedAt := some now }
  let updated : Post :=
    match newSlug with
    | some ns =>
      { updated with
        slug := ns,
        oldSlugs :=
          if cur.slug ≠ "" ∧ cur.slug ∉ cur.oldSlugs
          then cur.oldSlugs ++ [cur.slug] else cur.oldSlugs }
    | none => updated
  updatePostDoc st pid (fun _ => updated)

/-- `updatePost`: look up the post, decide whether the slug is changing
(a provided, non-empty slug whose normalization differs from the current
one), check availability in that case, then write. -/
def updatePost (st : Store) (pid : String) (d : UpdateData) (now : Nat) :
    Except String Store :=
  match findPost st.posts pid with
  | none => Except.error "Post not found"
  | some cur =>
    let nns : Option String :=
      match d.slug with
      | some s => if s = "" then none else some (normalizeSlug s)
      | none => none
    match nns with
    | some ns =>
      if ns ≠ "" ∧ ns ≠ cur.slug then
        if isSlugAvailable st ns (some pid) then
          Except.ok (commitUpdate st pid cur d now (some ns))
        else Except.error "A post with this slug already exists"
      else Except.ok (commitUpdate st pid cur d now none)
    | none => Except.ok (commitUpdate st pid cur d now none)

/-- `togglePostStatus`: flip the status; set `publishedAt` only when
publishing a post that has none (first publish); keep it intact when
unpublishing. -/
def togglePostStatus (st : Store) (pid : String) (now : Nat) : Except String Store :=
  match findPost st.posts pid with
  | none => Except.error "Post not found"
  | some p =>
    let newStatus := if p.status = Status.published then Status.draft else Status.published
    let p2 : Post := { p with status := newStatus, updatedAt := some now }
    let p2 : Post :=
      if newStatus = Status.published ∧ p.publishedAt = none
      then { p2 with publishedAt := some now } else p2
    Except.ok (updatePostDoc st pid (fun _ => p2))

/-- `publishPost`: set status to published; set `publishedAt` only if not
previously set. -/
def publishPost (st : Store) (pid : String) (now : Nat) : Except String Store :=
  match findPost st.posts pid with
  | none => Except.error "Post not found"
  | some p =>
    let p2 : Post := { p with status := Status.published, updatedAt := some now }
    let p2 : Post :=
      if p.publishedAt = none then { p2 with publishedAt := some now } else p2
    Except.ok (updatePostDoc st pid (fun _ => p2))

/-- `unpublishPost`: set status to draft and `updatedAt`; `publishedAt` is
intentionally preserved. -/
def unpublishPost (st : Store) (pid : String) (now : Nat) : Except String Store :=
  match findPost st.posts pid with
  | none => Except.error "Post not found"
  | some p =>
    Except.ok (updatePostDoc st pid
      (fun _ => { p with status := Status.draft, updatedAt := some now }))

/-! ### Post versioning (admin.ts) -/

/-- The descending-by-creation-time order used by the versions queries
(`orderBy createdAt desc`). -/
def verGE (a b : Version) : Prop := b.createdAt ≤ a.createdAt

instance : DecidableRel verGE := fun a b => Nat.decLe b.createdAt a.createdAt

instance : IsTotal Version verGE :=
  ⟨fun a b => (Nat.le_total b.createdAt a.createdAt).imp (fun h => h) (fun h => h)⟩

instance : IsTrans Version verGE :=
  ⟨fun _ _ _ hab hbc => Nat.le_trans hbc hab⟩

/-- Retention cap: `MAX_VERSIONS` in admin.ts. -/
def MAX_VERSIONS : Nat := 20

/-- `createVersion`: snapshot the current editable fields of the post into
its versions subcollection, then re-evaluate retention over the full log:
if it now holds more than `MAX_VERSIONS` entries, keep only the
`MAX_VERSIONS` most recent by creation time and delete the rest in one
batch.  `now` models the server timestamp and `newId` the assigned version
document id.  Fails only when the post does not exist. -/
def createVersion (st : Store) (postId : String) (note : Option String)
    (now : Nat) (newId : String) : Except String (Store × String) :=
  match findPost st.posts postId with
  | none => Except.error "Post not found"
  | some p =>
    let newV : Version :=
      { id := newId, title := p.title, slug := p.slug, excerpt := p.excerpt,
        content := p.content, status := p.status, createdAt := now, note := note }
    let appended := getVers st.versions postId ++ [newV]
    let allSorted := List.insertionSort verGE appended
    let kept := if allSorted.length > MAX_VERSIONS then allSorted.take MAX_VERSIONS else appended
    Except.ok ({ st with versions := setVers st.versions postId kept }, newId)

/-- `getVersions`: all snapshots of a post, newest first. -/
def getVersions (st : Store) (postId : String) : List Version :=
  List.insertionSort verGE (getVers st.versions postId)

/-- Version lookup by document id inside a subcollection. -/
def findVersion : List Version → String → Option Version
  | [], _ => none
  | v :: vs, vid => if v.id = vid then some v else findVersion vs vid

/-- `restoreVersion`: fail when the post or the version is missing;
otherwise snapshot the pre-restore post state as a new version noted
"Before restore" (its result is not checked), then copy the editable
fields of the chosen version onto the post and set `updatedAt`;
`publishedAt` is not written and so keeps its current value. -/
def restoreVersion (st : Store) (postId versionId : String)
    (snapNow : Nat) (snapId : String) (updNow : Nat) : Except String Store :=
  match findPost st.posts postId with
  | none => Except.error "Post not found"
  | some p =>
    match findVersion (getVers st.versions postId) versionId with
    | none => Except.error "Version not found"
    | some vd =>
      let stMid :=
        match createVersion st postId (some "Before restore") snapNow snapId with
        | Except.ok (st2, _) => st2
        | Except.error _ => st
      let _ := p
      Except.ok (updatePostDoc stMid postId (fun cur =>
        { cur with
          title := vd.title, slug := vd.slug, excerpt := vd.excerpt,
          content := vd.content, status := vd.status,
          updatedAt := some updNow }))

/-! ### Preview tokens (admin.ts) -/

/-- `generatePreviewToken`: overwrite the preview map of the post with a
fresh token, enabled, and the issue time.  The token value is produced by a
cryptographic generator in the source; here it is a caller-supplied
parameter. -/
def generatePreviewToken (st : Store) (postId : String) (tok : String)
    (now : Nat) : Except String (Store × String) :=
  match findPost st.posts postId with
  | none => Except.error "Post not found"
  | some _ =>
    Except.ok (updatePostDoc st postId (fun p =>
      { p with preview := some { token := some tok, enabled := true, createdAt := some now } }),
      tok)

/-- `revokePreviewToken`: overwrite the preview map with a null token and
`enabled = false` (the token value is cleared, not merely the flag). -/
def revokePreviewToken (st : Store) (postId : String) (now : Nat) :
    Except String Store :=
  match findPost st.posts postId with
  | none => Except.error "Post not found"
  | some _ =>
    Except.ok (updatePostDoc st postId (fun p =>
      { p with preview := some { token := none, enabled := false, createdAt := some now } }))

/-- `getPostByPreviewToken`: the first post whose stored preview token
equals the given value and whose preview is enabled, regardless of publish
status; `none` in every other case. -/
def getPostByPreviewToken (st : Store) (t : String) : Option Post :=
  findByPreview st.posts t

/-! ### Client-side save coordinator (the post editor component)

The editor runs on a single logical thread: edits, debounce-timer firings
and network completions interleave as discrete events.  The mutable refs
and state hooks of the component are collected into `EditorState`; each
handler of the source becomes a step function on it.  Network completions
are modelled by `completeSave`, applied to the state at completion time
together with the data captured at dispatch time (`DispatchedSave`);
`fetch` itself is the only suspension point.  Callback invocations that
cross the component boundary (`onSaveSuccess`, `onAuthError`) are recorded
as event counters/lists in the state. -/

/-- The save-state machine exposed to the UI (`SaveState` in the source). -/
inductive SaveState where
  | idle
  | unsaved
  | saving
  | saved (timestamp : Nat)
  | error (message : String)
deriving DecidableEq, Repr

/-- The editor component state: form draft, last-saved snapshot, save-state,
the current post id ref, the concurrency refs (`isSavingRef`,
`pendingSaveRef`, `saveIdRef`), the debounced-autosave timer, and the
record of surfaced callbacks. -/
structure EditorState where
  draft : PostData
  lastSaved : PostData
  saveState : SaveState
  currentPostId : Option String
  isSaving : Bool
  pendingSave : Bool
  saveId : Nat
  autosaveArmed : Bool
  authErrorCalls : Nat
  saveSuccessCalls : List String
deriving DecidableEq, Repr

/-- `isPostDataEqual`: field-by-field comparison of two drafts. -/
def isPostDataEqual (a b : PostData) : Bool :=
  a.title == b.title && a.slug == b.slug && a.excerpt == b.excerpt &&
    a.content == b.content && decide (a.status = b.status)

/-- `isDirty`: current draft differs from the last-saved snapshot. -/
def isDirty (s : EditorState) : Bool :=
  !(isPostDataEqual s.draft s.lastSaved)

/-- Data captured at dispatch time by `performSave`: the assigned sequence
number, the draft that was sent, whether the create branch was taken
(no current post id at dispatch), the post id captured at dispatch, and the
version flags sent with the request. -/
structure DispatchedSave where
  saveId : Nat
  data : PostData
  isCreate : Bool
  savedPostId : Option String
  createVersion : Bool
  versionNote : Option String
deriving DecidableEq, Repr

/-- Outcome of the network round trip of one save: success (for the create
branch, carrying the id in the response body), an authentication failure
(HTTP 401/403), any other non-ok response (with its optional error
message), or a thrown network exception. -/
inductive SaveResponse where
  | httpOk (newId : Option String)
  | httpAuth
  | httpErr (msg : Option String)
  | netError
deriving DecidableEq, Repr

/-- The synchronous prefix of `performSave` up to the `fetch` suspension
point: obtain the credential (`getToken`); on a missing credential set the
error state and raise the auth-error signal without dispatching; otherwise
assign the next sequence number, mark a save in flight, enter `saving`, and
dispatch with the current draft. -/
def performSaveDispatch (tok : Option String) (cv : Bool) (note : Option String)
    (s : EditorState) : EditorState × Option DispatchedSave :=
  match tok with
  | none =>
    ({ s with saveState := SaveState.error "Not authenticated",
              authErrorCalls := s.authErrorCalls + 1 }, none)
  | some _ =>
    let thisSaveId := s.saveId + 1
    ({ s with saveId := thisSaveId, isSaving := true, saveState := SaveState.saving },
      some { saveId := thisSaveId, data := s.draft,
             isCreate := s.currentPostId.isNone,
             savedPostId := s.currentPostId,
             createVersion := cv, versionNote := note })

/-- The completion of one save, applied to the editor state at the moment
the response arrives.  In source order: on the create branch an ok response
immediately stores the created id into the current-post-id ref; then the
staleness check compares the sequence number of this save against the
latest dispatched and returns without further effect when superseded; then
the 401/403 branch (error state plus auth-error signal), the generic
failure branch, or the success branch (replace the last-saved snapshot with
the draft that was sent, enter `saved`, surface the post id).  A thrown
network exception skips to the catch branch (staleness check, then error
state).  The `finally` block always clears the in-flight flag and, when the
pending flag is set, clears it and schedules exactly one follow-up save;
the returned boolean reports that scheduling. -/
def completeSave (s : EditorState) (d : DispatchedSave) (resp : SaveResponse)
    (now : Nat) : EditorState × Bool :=
  let savedPostId : Option String :=
    if d.isCreate then
      match resp with
      | SaveResponse.httpOk newId => newId
      | _ => none
    else d.savedPostId
  let s1 : EditorState :=
    if d.isCreate then
      match resp with
      | SaveResponse.httpOk newId => { s with currentPostId := newId }
      | _ => s
    else s
  let s2 : EditorState :=
    if d.saveId ≠ s1.saveId then s1
    else
      match resp with
      | SaveResponse.httpAuth =>
        { s1 with saveState := SaveState.error "Authentication expired",
                  authErrorCalls := s1.authErrorCalls + 1 }
      | SaveResponse.httpErr msg =>
        { s1 with saveState := SaveState.error (msg.getD "Failed to save") }
      | SaveResponse.netError =>
        { s1 with saveState := SaveState.error "Network error. Check your connection." }
      | SaveResponse.httpOk _ =>
        let s3 := { s1 with lastSaved := d.data, saveState := SaveState.saved now }
        match savedPostId with
        | some pid => { s3 with saveSuccessCalls := pid :: s3.saveSuccessCalls }
        | none => s3
  ({ s2 with isSaving := false, pendingSave := false }, s2.pendingSave)

/-- `requestSave`: no-op when the draft is clean; when a save is in flight,
set the single pending flag and return without dispatching; otherwise
dispatch immediately. -/
def requestSave (tok : Option String) (cv : Bool) (note : Option String)
    (s : EditorState) : EditorState × Option DispatchedSave :=
  if isDirty s then
    if s.isSaving then ({ s with pendingSave := true }, none)
    else performSaveDispatch tok cv note s
  else (s, none)

/-- The follow-up timer scheduled by the `finally` block of a completed
save whose pending flag was set: when it fires, dispatch one save (without
version creation) only if the draft is still dirty. -/
def runFollowUp (tok : Option String) (s : EditorState) :
    EditorState × Option DispatchedSave :=
  if isDirty s then performSaveDispatch tok false none s else (s, none)

/-- `handleChange`, run by the field-change effect after any field of the
form changes: when the draft is dirty, enter `unsaved` and (re)arm the
debounced autosave.  Modelled from the spec: the debounce utility hook is
not among the sources; its trailing-edge schedule/cancel behaviour is
modelled by the `autosaveArmed` flag. -/
def handleChange (s : EditorState) : EditorState :=
  if isDirty s then
    { s with saveState := SaveState.unsaved, autosaveArmed := true }
  else s

/-- Firing of the debounced autosave timer: if armed, disarm and call
`requestSave` with `createVersion = false`. -/
def fireAutosave (tok : Option String) (s : EditorState) :
    EditorState × Option DispatchedSave :=
  if s.autosaveArmed then
    requestSave tok false none { s with autosaveArmed := false }
  else (s, none)

/-- `handleManualSave`: cancel the pending debounced autosave, then request
a save that creates a version exactly when the post already has a persisted
identity. -/
def handleManualSave (tok : Option String) (s : EditorState) :
    EditorState × Option DispatchedSave :=
  requestSave tok s.currentPostId.isSome (some "Manual save")
    { s with autosaveArmed := false }

/-- `handleVersionRestore`: cancel the pending debounced autosave, load the
version fields into the form, and mark the editor `unsaved`; the last-saved
snapshot is deliberately not updated. -/
def handleVersionRestore (v : PostData) (s : EditorState) : EditorState :=
  { s with autosaveArmed := false, draft := v, saveState := SaveState.unsaved }

/-! ## Demonstration data shared by the concrete theorems -/

/-- A published post whose `publishedAt` was set at its first publish. -/
def demoPubPost : Post :=
  { id := "p1", title := "t", slug := "hello", oldSlugs := [], excerpt := "e",
    content := "c", status := Status.published, publishedAt := some 5,
    createdAt := some 1, updatedAt := some 1, preview := none }

/-- Store holding only `demoPubPost`. -/
def demoPubStore : Store := { posts := [demoPubPost], versions := [] }

/-- The same post after an unpublish: a draft that had been published
before (its `publishedAt` is still set). -/
def demoUnpubPost : Post := { demoPubPost with status := Status.draft }

/-- Store holding only `demoUnpubPost`. -/
def demoUnpubStore : Store := { posts := [demoUnpubPost], versions := [] }

/-- An update carrying only a status, as sent by a save of the editor form
with the given radio selection. -/
def updStatus (x : Status) : UpdateData := ⟨none, none, none, none, some x⟩

/-- The `publishedAt` of the given post after a store operation: `none`
when the operation failed, otherwise the field (itself an `Option Nat`). -/
def publishedAtAfter (r : Except String Store) (pid : String) : Option (Option Nat) :=
  match r with
  | Except.ok st => (findPost st.posts pid).map Post.publishedAt
  | Except.error _ => none

/-- A default dispatched save used only to unwrap optional dispatches of
the concrete traces below. -/
def noDispatch : DispatchedSave :=
  { saveId := 0, data := ⟨"", "", "", "", Status.draft⟩, isCreate := false,
    savedPostId := none, createVersion := false, versionNote := none }

/-- The empty form of a brand-new post (no initial data). -/
def blankData : PostData := ⟨"", "", "", "", Status.draft⟩

/-- Stale-completion witness state: the latest dispatched sequence number
is 3. -/
def c2wState : EditorState :=
  { draft := ⟨"T", "t", "", "x", Status.draft⟩, lastSaved := blankData,
    saveState := SaveState.saving, currentPostId := some "p9", isSaving := true,
    pendingSave := false, saveId := 3, autosaveArmed := false,
    authErrorCalls := 0, saveSuccessCalls := [] }

/-- A superseded update save of sequence number 2. -/
def c2wDispatch : DispatchedSave :=
  { saveId := 2, data := ⟨"T", "t", "", "x", Status.draft⟩, isCreate := false,
    savedPostId := some "p9", createVersion := false, versionNote := none }

/-! Concrete interleaving for the C2 counterexample, driven entirely
through the editor step functions.  A brand-new post is edited; the first
autosave (sequence 1) fails with a network error while a second save was
queued behind it, so its completion schedules the follow-up timer.  Before
that timer fires, a further edit and debounced autosave dispatch save A
(sequence 2); then the follow-up timer fires and dispatches save B
(sequence 3) — both are create saves, the post still has no identity.
B completes first and surfaces the created id; then the stale A
completes. -/

/-- Draft after the first edits of the new post. -/
def c2d1Data : PostData := ⟨"T1", "t1", "", "x", Status.draft⟩

/-- Draft after the edits made while save 1 was in flight. -/
def c2d2Data : PostData := ⟨"T2", "t2", "", "xy", Status.draft⟩

/-- Draft after the edits made after save 1 completed. -/
def c2d3Data : PostData := ⟨"T3", "t3", "", "xyz", Status.draft⟩

/-- New-post editor just before the first debounced autosave fires. -/
def c2s0 : EditorState :=
  { draft := c2d1Data, lastSaved := blankData, saveState := SaveState.unsaved,
    currentPostId := none, isSaving := false, pendingSave := false, saveId := 0,
    autosaveArmed := false, authErrorCalls := 0, saveSuccessCalls := [] }

/-- The first autosave dispatch (sequence 1). -/
def c2step1 : EditorState × Option DispatchedSave :=
  requestSave (some "tk") false none c2s0

/-- Dispatch record of save 1. -/
def c2d1 : DispatchedSave := c2step1.2.getD noDispatch

/-- Editor after further edits during the flight of save 1, then a second
save request that only sets the pending flag. -/
def c2s3 : EditorState :=
  (requestSave (some "tk") false none { c2step1.1 with draft := c2d2Data }).1

/-- Completion of save 1 with a network error; its pending flag schedules
the follow-up timer. -/
def c2comp1 : EditorState × Bool := completeSave c2s3 c2d1 SaveResponse.netError 5

/-- More edits, then the next debounced autosave dispatches save A
(sequence 2, a create save). -/
def c2step6 : EditorState × Option DispatchedSave :=
  requestSave (some "tk") false none { c2comp1.1 with draft := c2d3Data }

/-- Dispatch record of save A. -/
def c2dA : DispatchedSave := c2step6.2.getD noDispatch

/-- The follow-up timer scheduled by the completion of save 1 fires and
dispatches save B (sequence 3, a create save). -/
def c2step7 : EditorState × Option DispatchedSave :=
  runFollowUp (some "tk") c2step6.1

/-- Dispatch record of save B. -/
def c2dB : DispatchedSave := c2step7.2.getD noDispatch

/-- Editor after B, the latest save, completed successfully: the created
post id is stored and surfaced. -/
def c2s8 : EditorState :=
  (completeSave c2step7.1 c2dB (SaveResponse.httpOk (some "idB")) 6).1

/-- Editor after the stale save A also completed successfully. -/
def c2s9 : EditorState :=
  (completeSave c2s8 c2dA (SaveResponse.httpOk (some "idA")) 7).1

/-- Saved editor state of an existing post, used by the C9 trace. -/
def c9SavedData : PostData := ⟨"T", "t", "E", "C", Status.published⟩

/-- Fields of an older version chosen for restore (differing from the
saved draft). -/
def c9VersionData : PostData := ⟨"Told", "t", "E", "Cold", Status.draft⟩

/-- Editor of an existing post with everything saved, no timer armed. -/
def c9s0 : EditorState :=
  { draft := c9SavedData, lastSaved := c9SavedData, saveState := SaveState.saved 3,
    currentPostId := some "p1", isSaving := false, pendingSave := false,
    saveId := 1, autosaveArmed := false, authErrorCalls := 0, saveSuccessCalls := [] }

/-- Editor right after the restore handler ran. -/
def c9s1 : EditorState := handleVersionRestore c9VersionData c9s0

/-- Editor after the field-change effect reacted to the restored fields. -/
def c9s2 : EditorState := handleChange c9s1

/-- The debounce delay elapses with no further user action. -/
def c9fire : EditorState × Option DispatchedSave := fireAutosave (some "tk") c9s2

/-- Editor state holding a stale auth-failing completion for the C10
counterexample: the latest dispatched sequence number is 2, the completing
save carries 1. -/
def c10s : EditorState :=
  { draft := ⟨"T", "t", "", "x", Status.draft⟩, lastSaved := blankData,
    saveState := SaveState.saved 7, currentPostId := some "p1", isSaving := true,
    pendingSave := false, saveId := 2, autosaveArmed := false,
    authErrorCalls := 0, saveSuccessCalls := [] }

/-- The superseded save whose response is 401/403. -/
def c10d : DispatchedSave :=
  { saveId := 1, data := ⟨"T", "t", "", "x", Status.draft⟩, isCreate := false,
    savedPostId := some "p1", createVersion := false, versionNote := none }

/-- Witness state for the amended C10: the completing save is the latest
(sequence numbers agree). -/
def c10wS : EditorState := { c10s with saveId := 1 }

/-- A dirty editor with a save in flight (C3 witness data). -/
def c3Busy : EditorState :=
  { draft := ⟨"T", "t", "", "x", Status.draft⟩, lastSaved := blankData,
    saveState := SaveState.saving, currentPostId := some "p1", isSaving := true,
    pendingSave := false, saveId := 1, autosaveArmed := false,
    authErrorCalls := 0, saveSuccessCalls := [] }

/-- A dirty editor with no save in flight. -/
def c3Idle : EditorState := { c3Busy with isSaving := false, saveState := SaveState.unsaved }

/-- A clean editor (draft equals the last-saved snapshot). -/
def c3Clean : EditorState := { c3Idle with draft := blankData }

/-- Repeated `createVersion` calls on the same post: call `k` uses server
time `k` and version id `v` followed by the decimal of `k`. -/
def iterCreate (st : Store) (pid : String) : Nat → Store
  | 0 => st
  | Nat.succ k =>
    let st1 := iterCreate st pid k
    match createVersion st1 pid none (k + 1) (String.append "v" (Nat.repr (k + 1))) with
    | Except.ok (st2, _) => st2
    | Except.error _ => st1

/-- Version with id `w` followed by the decimal of `i` created at time
`i + 1` (C4 and C8 demonstration data). -/
def mkDemoVer (i : Nat) : Version :=
  { id := String.append "w" (Nat.repr i), title := "t", slug := "s",
    excerpt := "e", content := "c", status := Status.published,
    createdAt := i + 1, note := none }

/-- A store left with 21 versions, as after a crash between the append and
the eviction of a previous `createVersion`. -/
def c4OverStore : Store :=
  { posts := [demoPubPost], versions := [("p1", (List.range 21).map mkDemoVer)] }

/-- Version count of the post after one further successful `createVersion`
on the overfull store (`none` if the call failed). -/
def c4OverCount : Option Nat :=
  match createVersion c4OverStore "p1" none 100 "w100" with
  | Except.ok (st2, _) => some (getVers st2.versions "p1").length
  | Except.error _ => none

/-- The store after one `createVersion` on the version-less demo store
(C4 witness data). -/
def c4OneStore : Store :=
  match createVersion demoPubStore "p1" none 1 "v1" with
  | Except.ok (st2, _) => st2
  | Except.error _ => demoPubStore

/-- A draft post carrying an enabled preview token (C7 witness data). -/
def c7DraftPost : Post :=
  { id := "p1", title := "t", slug := "s", oldSlugs := [], excerpt := "e",
    content := "c", status := Status.draft, publishedAt := none,
    createdAt := some 1, updatedAt := some 1,
    preview := some { token := some "sec", enabled := true, createdAt := some 2 } }

/-- Store holding only `c7DraftPost`. -/
def c7Store : Store := { posts := [c7DraftPost], versions := [] }

/-- The store after revoking the preview token of `c7DraftPost`. -/
def c7Revoked : Store :=
  match revokePreviewToken c7Store "p1" 9 with
  | Except.ok st2 => st2
  | Except.error _ => c7Store

/-- A published post whose live slug is `b` and whose retired-slug set
still references `a` (C6 data). -/
def c6Existing : Post :=
  { id := "p1", title := "t", slug := "b", oldSlugs := ["a"], excerpt := "e",
    content := "c", status := Status.published, publishedAt := some 1,
    createdAt := some 1, updatedAt := some 1, preview := none }

/-- Store holding only `c6Existing`. -/
def c6Store : Store := { posts := [c6Existing], versions := [] }

/-- A creation request claiming the retired slug `a` as its live slug. -/
def c6NewData : PostData := ⟨"New", "a", "x", "body", Status.draft⟩

/-- Live slugs after the creation attempt, with the assigned id; `none`
when creation failed. -/
def c6Result : Option (List String × String) :=
  match createPost c6Store c6NewData 5 "p2" with
  | Except.ok (st2, nid) => some (st2.posts.map Post.slug, nid)
  | Except.error _ => none

/-- A creation request whose slug collides with the live slug of
`demoPubPost` (C6 witness data). -/
def c6TakenData : PostData := ⟨"x", "hello", "", "y", Status.draft⟩

/-- Twenty versions `w0` … `w19` created at times 1 … 20 (C8 data). -/
def c8Vers : List Version := (List.range 20).map mkDemoVer

/-- Store with a post whose version log is exactly at the retention cap. -/
def c8Store : Store := { posts := [demoPubPost], versions := [("p1", c8Vers)] }

/-- Whether the restored-from version `w0` still exists after restoring it
on the at-cap store: `none` when the restore failed, otherwise the lookup
result. -/
def c8After : Option (Option Version) :=
  match restoreVersion c8Store "p1" "w0" 100 "snap" 101 with
  | Except.ok st2 => some (findVersion (getVers st2.versions "p1") "w0")
  | Except.error _ => none

/-- Store with a single version, far below the cap (C8 witness data). -/
def c8SmallStore : Store := { posts := [demoPubPost], versions := [("p1", [mkDemoVer 0])] }

/-- The post document produced by a successful slug-changing `updatePost`
that carries only the new slug: the previous live slug is retired into
`oldSlugs` and `updatedAt` is set. -/
def renamed (p : Post) (s : String) (now : Nat) : Post :=
  { p with slug := s, oldSlugs := p.oldSlugs ++ [p.slug], updatedAt := some now }

/-- A freshly created published post with live slug `a` and no retired
slugs (C5 witness data). -/
def c5Post : Post :=
  { id := "p1", title := "t", slug := "a", oldSlugs := [], excerpt := "e",
    content := "c", status := Status.published, publishedAt := some 3,
    createdAt := some 1, updatedAt := some 1, preview := none }

/-- The store after one further `createVersion` on the at-cap store
(C4 witness data: this call evicts the oldest version). -/
def c4EvictStore : Store :=
  match createVersion c8Store "p1" none 100 "w100" with
  | Except.ok (st2, _) => st2
  | Except.error _ => c8Store

/-- The store produced by the successful creation that claims the retired
slug `a` (C6 witness data). -/
def c6CreatedStore : Store :=
  match createPost c6Store c6NewData 5 "p2" with
  | Except.ok (st2, _) => st2
  | Except.error _ => c6Store

/-- The single post of `c7Revoked` (C7 witness data). -/
def c7RevokedPost : Post :=
  { c7DraftPost with
    preview := some { token := none, enabled := false, createdAt := some 9 } }

/-- The store after restoring `w0` on the one-version store (C8 witness
data). -/
def c8SmallAfter : Store :=
  match restoreVersion c8SmallStore "p1" "w0" 100 "snap" 101 with
  | Except.ok st2 => st2
  | Except.error _ => c8SmallStore

/-! ## C1: persistence of `publishedAt` across mutating operations -/

/-- C1.  The claim states that once `publishedAt` is set it is never
cleared nor reset by any of `updatePost`, `publishPost`, `unpublishPost`,
`togglePostStatus`.  The code contradicts it in `updatePost`: a save
carrying status `draft` clears `publishedAt` to null, and a save carrying
status `published` on a post that is currently a draft resets it to the
save time even when a first-publish time is already recorded.  The
dedicated operations do preserve it.  This theorem evaluates all six cases
on concrete stores. -/
theorem C1_publishedAt_lifecycle :
    (findPost demoPubStore.posts "p1").map Post.publishedAt = some (some 5) ∧
    publishedAtAfter (updatePost demoPubStore "p1" (updStatus Status.draft) 10) "p1" =
      some none ∧
    publishedAtAfter (unpublishPost demoPubStore "p1" 10) "p1" = some (some 5) ∧
    publishedAtAfter (togglePostStatus demoPubStore "p1" 10) "p1" = some (some 5) ∧
    (findPost demoUnpubStore.posts "p1").map Post.publishedAt = some (some 5) ∧
    publishedAtAfter (updatePost demoUnpubStore "p1" (updStatus Status.published) 10) "p1" =
      some (some 10) ∧
    publishedAtAfter (publishPost demoUnpubStore "p1" 10) "p1" = some (some 5) ∧
    publishedAtAfter (togglePostStatus demoUnpubStore "p1" 10) "p1" = some (some 5) := by
  decide

/-! ## C2: discarding of stale save completions -/

/-- C2 (amended).  A completion whose sequence number is no longer the
latest dispatched leaves the save-state, the last-saved snapshot and both
surfaced-callback records untouched, for every response kind; and for
update saves it also leaves the current post id untouched.  (For create
saves the current post id is the exception established by the
counterexample.) -/
theorem C2_stale_completion_discard (s : EditorState) (d : DispatchedSave)
    (resp : SaveResponse) (now : Nat) (hstale : d.saveId ≠ s.saveId) :
    (completeSave s d resp now).1.saveState = s.saveState ∧
    (completeSave s d resp now).1.lastSaved = s.lastSaved ∧
    (completeSave s d resp now).1.saveSuccessCalls = s.saveSuccessCalls ∧
    (completeSave s d resp now).1.authErrorCalls = s.authErrorCalls ∧
    (d.isCreate = false → (completeSave s d resp now).1.currentPostId = s.currentPostId) := by
  cases hc : d.isCreate <;> cases resp <;>
    simp [completeSave, hc, hstale]

/-- Closed instance of `C2_stale_completion_discard`. -/
theorem C2_stale_completion_discard_witness :
    (completeSave c2wState c2wDispatch (SaveResponse.httpErr none) 9).1.saveState =
      c2wState.saveState ∧
    (completeSave c2wState c2wDispatch (SaveResponse.httpErr none) 9).1.lastSaved =
      c2wState.lastSaved ∧
    (completeSave c2wState c2wDispatch (SaveResponse.httpErr none) 9).1.saveSuccessCalls =
      c2wState.saveSuccessCalls ∧
    (completeSave c2wState c2wDispatch (SaveResponse.httpErr none) 9).1.authErrorCalls =
      c2wState.authErrorCalls ∧
    (completeSave c2wState c2wDispatch (SaveResponse.httpErr none) 9).1.currentPostId =
      c2wState.currentPostId := by
  have h := C2_stale_completion_discard c2wState c2wDispatch (SaveResponse.httpErr none) 9
    (by decide)
  exact ⟨h.1, h.2.1, h.2.2.1, h.2.2.2.1, h.2.2.2.2 rfl⟩

/-- C2 counterexample.  In the concrete reachable interleaving built above,
save A (sequence 2) was dispatched before save B (sequence 3) and B's
response was processed first, surfacing the created post identity `idB`;
yet the completion of the stale A still mutates state: it overwrites the
stored post identity with its own created id `idA` before the staleness
check, so the surfaced identity does not remain as B's completion left it.
(The save-state, snapshot and callbacks are indeed untouched.) -/
theorem C2_counterexample :
    c2comp1.2 = true ∧
    c2step6.2 = some c2dA ∧
    c2step7.2 = some c2dB ∧
    c2dA.saveId = 2 ∧ c2dB.saveId = 3 ∧
    c2dA.isCreate = true ∧ c2dB.isCreate = true ∧
    c2s8.currentPostId = some "idB" ∧
    c2s8.saveSuccessCalls = ["idB"] ∧
    c2s9.currentPostId = some "idA" := by
  decide

/-! ## C9: version restore in the editor -/

/-- C9 counterexample.  After a restore, with no further user action at
all — only the automatic field-change effect and the elapsing of the
debounce delay — a save of the restored content is dispatched: the claim
that the restored content is persisted only by an explicit save fails. -/
theorem C9_counterexample :
    c9s1.lastSaved = c9SavedData ∧
    c9s1.saveState = SaveState.unsaved ∧
    c9s1.autosaveArmed = false ∧
    c9s1.draft = c9VersionData ∧
    c9s2.autosaveArmed = true ∧
    c9fire.2 = some { saveId := 2, data := c9VersionData, isCreate := false,
                      savedPostId := some "p1", createVersion := false,
                      versionNote := none } := by
  decide

/-- C9 (amended).  The restore handler cancels the pending debounced
autosave, overwrites the draft with the version fields, transitions to
`unsaved`, and does not update the last-saved snapshot, so the restored
content reads as dirty; but the field-change effect then re-arms the
debounced autosave whenever the restored draft is dirty, and the armed
timer dispatches a (version-less) save on its own, so the restored content
is persisted without an explicit save action. -/
theorem C9_restore_behaviour (v : PostData) (s : EditorState) :
    (handleVersionRestore v s).lastSaved = s.lastSaved ∧
    (handleVersionRestore v s).saveState = SaveState.unsaved ∧
    (handleVersionRestore v s).autosaveArmed = false ∧
    (handleVersionRestore v s).draft = v ∧
    (isDirty (handleVersionRestore v s) = true →
      (handleChange (handleVersionRestore v s)).autosaveArmed = true) ∧
    (∀ (t : String) (s2 : EditorState), s2.autosaveArmed = true →
      fireAutosave (some t) s2 =
        requestSave (some t) false none { s2 with autosaveArmed := false }) := by
  refine ⟨rfl, rfl, rfl, rfl, ?_, ?_⟩
  · intro h
    simp [handleChange, h]
  · intro t s2 h2
    simp [fireAutosave, h2]

/-- Closed instance of `C9_restore_behaviour` on the concrete restore
trace. -/
theorem C9_restore_behaviour_witness :
    (handleVersionRestore c9VersionData c9s0).lastSaved = c9s0.lastSaved ∧
    (handleVersionRestore c9VersionData c9s0).saveState = SaveState.unsaved ∧
    (handleVersionRestore c9VersionData c9s0).autosaveArmed = false ∧
    (handleVersionRestore c9VersionData c9s0).draft = c9VersionData ∧
    (handleChange (handleVersionRestore c9VersionData c9s0)).autosaveArmed = true ∧
    fireAutosave (some "tk") c9s2 =
      requestSave (some "tk") false none { c9s2 with autosaveArmed := false } := by
  have h := C9_restore_behaviour c9VersionData c9s0
  exact ⟨h.1, h.2.1, h.2.2.1, h.2.2.2.1, h.2.2.2.2.1 (by decide),
    h.2.2.2.2.2 "tk" c9s2 (by decide)⟩

/-! ## C10: surfacing of authentication failures -/

/-- C10 counterexample.  A save completing with HTTP 401/403 whose sequence
number is no longer the latest is discarded by the staleness check before
the auth branch runs: the save-state stays `saved` and no auth-error signal
is raised, contradicting the claim that the signal is raised even for
superseded saves. -/
theorem C10_counterexample :
    c10d.saveId ≠ c10s.saveId ∧
    (completeSave c10s c10d SaveResponse.httpAuth 9).1.authErrorCalls = 0 ∧
    (completeSave c10s c10d SaveResponse.httpAuth 9).1.saveState = SaveState.saved 7 := by
  decide

/-- C10 (amended).  An authentication failure sets the error state and
raises the auth-error signal exactly when the completing save is still the
latest dispatched; a superseded auth failure is discarded with no signal
and no save-state change. -/
theorem C10_auth_failure_surfacing (s : EditorState) (d : DispatchedSave) (now : Nat) :
    (d.saveId = s.saveId →
      completeSave s d SaveResponse.httpAuth now =
        ({ s with saveState := SaveState.error "Authentication expired",
                  authErrorCalls := s.authErrorCalls + 1,
                  isSaving := false, pendingSave := false }, s.pendingSave)) ∧
    (d.saveId ≠ s.saveId →
      (completeSave s d SaveResponse.httpAuth now).1.authErrorCalls = s.authErrorCalls ∧
      (completeSave s d SaveResponse.httpAuth now).1.saveState = s.saveState) := by
  constructor
  · intro h
    cases hc : d.isCreate <;> simp [completeSave, hc, h]
  · intro h
    cases hc : d.isCreate <;> simp [completeSave, hc, h]

/-- Closed instance of `C10_auth_failure_surfacing`: the latest save fails
with 401/403 and the signal is raised. -/
theorem C10_auth_failure_surfacing_witness :
    completeSave c10wS c10d SaveResponse.httpAuth 9 =
      ({ c10wS with saveState := SaveState.error "Authentication expired",
                    authErrorCalls := c10wS.authErrorCalls + 1,
                    isSaving := false, pendingSave := false }, c10wS.pendingSave) :=
  (C10_auth_failure_surfacing c10wS c10d 9).1 (by decide)

/-! ## C3: at most one in-flight save plus one pending flag -/

/-- C3.  While a save is in flight every further `requestSave` only sets
the single pending flag (when the draft is dirty) and dispatches nothing;
a second such call changes nothing further, so the flag cannot accumulate.
Every completion schedules the follow-up exactly when the pending flag was
set and always clears the flag; the follow-up timer dispatches nothing
when the draft is no longer dirty, and otherwise dispatches exactly one
save with `createVersion = false` and no version note. -/
theorem C3_single_pending_followup :
    (∀ (s : EditorState) (tok : Option String) (cv : Bool) (note : Option String),
      s.isSaving = true →
      requestSave tok cv note s =
        ((if isDirty s then { s with pendingSave := true } else s), none)) ∧
    (∀ (s : EditorState) (tok tok2 : Option String) (cv cv2 : Bool)
        (note note2 : Option String),
      s.isSaving = true →
      requestSave tok2 cv2 note2 (requestSave tok cv note s).1 =
        ((requestSave tok cv note s).1, none)) ∧
    (∀ (s : EditorState) (d : DispatchedSave) (resp : SaveResponse) (now : Nat),
      (completeSave s d resp now).2 = s.pendingSave ∧
      (completeSave s d resp now).1.pendingSave = false) ∧
    (∀ (s : EditorState) (tok : Option String),
      isDirty s = false → runFollowUp tok s = (s, none)) ∧
    (∀ (s : EditorState) (t : String),
      isDirty s = true →
      runFollowUp (some t) s =
        ({ s with saveId := s.saveId + 1, isSaving := true,
                  saveState := SaveState.saving },
          some { saveId := s.saveId + 1, data := s.draft,
                 isCreate := s.currentPostId.isNone,
                 savedPostId := s.currentPostId,
                 createVersion := false, versionNote := none })) := by
  refine ⟨?_, ?_, ?_, ?_, ?_⟩
  · intro s tok cv note h
    cases hd : isDirty s <;> simp [requestSave, hd, h]
  · intro s tok tok2 cv cv2 note note2 h
    cases hd : isDirty s <;>
      simp [requestSave, hd, h, isDirty] at * <;>
      simp [requestSave, hd, h, isDirty]
  · intro s d resp now
    cases hc : d.isCreate <;> cases resp <;>
      by_cases hst : d.saveId = s.saveId <;>
      simp [completeSave, hc, hst] <;>
      (try split) <;> simp
  · intro s tok hd
    simp [runFollowUp, hd]
  · intro s t hd
    simp [runFollowUp, hd, performSaveDispatch]

/-- Closed instance of `C3_single_pending_followup` on concrete editor
states. -/
theorem C3_single_pending_followup_witness :
    requestSave (some "tk") true (some "n") c3Busy =
      ((if isDirty c3Busy then { c3Busy with pendingSave := true } else c3Busy), none) ∧
    requestSave (some "tk") false none (requestSave (some "tk") true (some "n") c3Busy).1 =
      ((requestSave (some "tk") true (some "n") c3Busy).1, none) ∧
    ((completeSave c3Busy noDispatch SaveResponse.netError 4).2 = c3Busy.pendingSave ∧
      (completeSave c3Busy noDispatch SaveResponse.netError 4).1.pendingSave = false) ∧
    runFollowUp (some "tk") c3Clean = (c3Clean, none) ∧
    runFollowUp (some "tk") c3Idle =
      ({ c3Idle with saveId := c3Idle.saveId + 1, isSaving := true,
                     saveState := SaveState.saving },
        some { saveId := c3Idle.saveId + 1, data := c3Idle.draft,
               isCreate := c3Idle.currentPostId.isNone,
               savedPostId := c3Idle.currentPostId,
               createVersion := false, versionNote := none }) :=
  ⟨C3_single_pending_followup.1 c3Busy (some "tk") true (some "n") rfl,
   C3_single_pending_followup.2.1 c3Busy (some "tk") (some "tk") true false (some "n") none rfl,
   C3_single_pending_followup.2.2.1 c3Busy noDispatch SaveResponse.netError 4,
   C3_single_pending_followup.2.2.2.1 c3Clean (some "tk") (by decide),
   C3_single_pending_followup.2.2.2.2 c3Idle "tk" (by decide)⟩

/-! ## C4: version retention cap -/

/-- Reading back the subcollection just written. -/
theorem getVers_setVers (l : List (String × List Version)) (pid : String)
    (vs : List Version) : getVers (setVers l pid vs) pid = vs := by
  induction l with
  | nil => simp [setVers, getVers]
  | cons kv rest ih =>
    obtain ⟨k, old⟩ := kv
    by_cases h : k = pid <;> simp [setVers, getVers, h, ih]

/-- C4.  After any successful `createVersion` the version log of the post
holds `min (previous + 1) 20` entries, and every evicted entry is at least
as old (by creation time) as every kept one — eviction re-evaluates the
full count, so this also holds starting from an overfull log.  Concretely:
21 successive calls on an empty log leave exactly the 20 most recent
snapshots, and on a log already holding 21 entries a single call brings
the count back to 20. -/
theorem C4_version_retention :
    (∀ (st : Store) (pid : String) (note : Option String) (now : Nat)
        (nid : String) (st2 : Store) (vid : String),
      createVersion st pid note now nid = Except.ok (st2, vid) →
      (getVers st2.versions pid).length =
        min ((getVers st.versions pid).length + 1) MAX_VERSIONS ∧
      (∀ v ∈ getVers st2.versions pid, ∀ w ∈ getVers st.versions pid,
        w ∉ getVers st2.versions pid → w.createdAt ≤ v.createdAt)) ∧
    ((getVers (iterCreate demoPubStore "p1" 21).versions "p1").length = 20 ∧
      (getVers (iterCreate demoPubStore "p1" 21).versions "p1").map Version.createdAt =
        [21, 20, 19, 18, 17, 16, 15, 14, 13, 12, 11, 10, 9, 8, 7, 6, 5, 4, 3, 2]) ∧
    c4OverCount = some 20 := by
  refine ⟨?_, by decide, by decide⟩
  intro st pid note now nid st2 vid h
  cases hfp : findPost st.posts pid with
  | none => simp [createVersion, hfp] at h
  | some p =>
    simp only [createVersion, hfp] at h
    rw [Except.ok.injEq, Prod.mk.injEq] at h
    obtain ⟨h1, _⟩ := h
    subst h1
    set newV : Version :=
      { id := nid, title := p.title, slug := p.slug, excerpt := p.excerpt,
        content := p.content, status := p.status, createdAt := now,
        note := note } with hnewV
    set appended := getVers st.versions pid ++ [newV] with happ
    set sorted := List.insertionSort verGE appended with hsorted_def
    have hlen : sorted.length = (getVers st.versions pid).length + 1 := by
      rw [hsorted_def, List.length_insertionSort, happ]
      simp
    by_cases hbig : sorted.length > MAX_VERSIONS
    · simp only [getVers_setVers, hbig, if_pos]
      constructor
      · rw [List.length_take, hlen]
        rw [hlen] at hbig
        omega
      · intro v hv w hw hnk
        have hwapp : w ∈ appended := by
          rw [happ]; exact List.mem_append_left _ hw
        have hwsorted : w ∈ sorted := by
          rw [hsorted_def]
          exact (List.mem_insertionSort verGE).mpr hwapp
        have hpair : List.Pairwise verGE sorted :=
          List.sorted_insertionSort verGE appended
        have hsplit := List.pairwise_append.mp
          (by rw [List.take_append_drop MAX_VERSIONS sorted] ; exact hpair)
        rw [← List.take_append_drop MAX_VERSIONS sorted] at hwsorted
        rcases List.mem_append.mp hwsorted with hwt | hwd
        · exact absurd hwt hnk
        · exact hsplit.2.2 v hv w hwd
    · simp only [getVers_setVers, hbig, if_neg, not_false_iff]
      constructor
      · rw [hlen] at hbig
        rw [happ]
        simp only [List.length_append, List.length_singleton]
        omega
      · intro v hv w hw hnk
        exact absurd (by rw [happ]; exact List.mem_append_left _ hw) hnk

/-- Closed instance of the universal part of `C4_version_retention`: one
call on an empty log gives one version, and one call on the at-cap store
evicts only versions at least as old as every survivor. -/
theorem C4_version_retention_witness :
    (getVers c4OneStore.versions "p1").length =
      min ((getVers demoPubStore.versions "p1").length + 1) MAX_VERSIONS ∧
    (getVers c4EvictStore.versions "p1").length =
      min ((getVers c8Store.versions "p1").length + 1) MAX_VERSIONS ∧
    (mkDemoVer 0).createdAt ≤ (mkDemoVer 19).createdAt := by
  have h1 := C4_version_retention.1 demoPubStore "p1" none 1 "v1" c4OneStore "v1" rfl
  have h2 := C4_version_retention.1 c8Store "p1" none 100 "w100" c4EvictStore "w100" rfl
  exact ⟨h1.1, h2.1,
    h2.2 (mkDemoVer 19) (by decide) (mkDemoVer 0) (by decide) (by decide)⟩

/-! ## C7: preview token resolve and revoke -/

/-- A found post really is a member matching the preview query. -/
theorem findByPreview_some {l : List Post} {t : String} {p : Post}
    (h : findByPreview l t = some p) : p ∈ l ∧ previewMatches p t := by
  induction l with
  | nil => simp [findByPreview] at h
  | cons q qs ih =>
    by_cases hm : previewMatches q t
    · simp only [findByPreview, if_pos hm, Option.some.injEq] at h
      subst h
      exact ⟨List.mem_cons_self q qs, hm⟩
    · simp only [findByPreview, if_neg hm] at h
      obtain ⟨hmem, hmt⟩ := ih h
      exact ⟨List.mem_cons_of_mem q hmem, hmt⟩

/-- A member matching the preview query makes the search succeed. -/
theorem findByPreview_isSome {l : List Post} {t : String}
    (h : ∃ p ∈ l, previewMatches p t) : (findByPreview l t).isSome = true := by
  induction l with
  | nil => simp at h
  | cons q qs ih =>
    by_cases hm : previewMatches q t
    · simp [findByPreview, hm]
    · simp only [findByPreview, if_neg hm]
      obtain ⟨p, hp, hpt⟩ := h
      rcases List.mem_cons.mp hp with rfl | hp2
      · exact absurd hpt hm
      · exact ih ⟨p, hp2, hpt⟩

/-- With no matching member the search returns none. -/
theorem findByPreview_none {l : List Post} {t : String}
    (h : ∀ p ∈ l, ¬ previewMatches p t) : findByPreview l t = none := by
  induction l with
  | nil => simp [findByPreview]
  | cons q qs ih =>
    have hq : ¬ previewMatches q t := h q (List.mem_cons_self q qs)
    simp only [findByPreview, if_neg hq]
    exact ih (fun p hp => h p (List.mem_cons_of_mem q hp))

/-- C7.  Preview resolve returns a post exactly when its currently stored
preview token equals the given value and the preview is enabled — no
publish-status condition is involved, so drafts resolve too; in every
other case the search yields nothing.  Revoking clears the stored token
value (not only the flag), and afterwards the old token resolves to
not-found just like a token that was never issued. -/
theorem C7_preview_resolve :
    (∀ (st : Store) (t : String) (p : Post),
      getPostByPreviewToken st t = some p →
      p ∈ st.posts ∧ ∃ pv, p.preview = some pv ∧ pv.token = some t ∧ pv.enabled = true) ∧
    (∀ (st : Store) (t : String),
      (∃ p ∈ st.posts, previewMatches p t) →
      (getPostByPreviewToken st t).isSome = true) ∧
    (∀ (st st2 : Store) (pid : String) (now : Nat),
      revokePreviewToken st pid now = Except.ok st2 →
      ∀ q ∈ st2.posts, q.id = pid →
        q.preview = some { token := none, enabled := false, createdAt := some now }) ∧
    (∀ (st st2 : Store) (pid : String) (now : Nat) (t : String),
      revokePreviewToken st pid now = Except.ok st2 →
      (∀ q ∈ st.posts, q.id ≠ pid → ¬ previewMatches q t) →
      getPostByPreviewToken st2 t = none) := by
  refine ⟨?_, ?_, ?_, ?_⟩
  · intro st t p h
    obtain ⟨hmem, hmt⟩ := findByPreview_some h
    refine ⟨hmem, ?_⟩
    unfold previewMatches at hmt
    cases hpv : p.preview with
    | none => rw [hpv] at hmt; exact absurd hmt (by simp)
    | some pv => rw [hpv] at hmt; exact ⟨pv, rfl, hmt⟩
  · intro st t h
    exact findByPreview_isSome h
  · intro st st2 pid now h q hq hid
    cases hfp : findPost st.posts pid with
    | none => simp [revokePreviewToken, hfp] at h
    | some p0 =>
      simp only [revokePreviewToken, hfp, Except.ok.injEq] at h
      subst h
      obtain ⟨q0, hq0, hqeq⟩ := List.mem_map.mp hq
      by_cases h0 : q0.id = pid
      · rw [if_pos h0] at hqeq
        rw [← hqeq]
      · rw [if_neg h0] at hqeq
        subst hqeq
        exact absurd hid h0
  · intro st st2 pid now t h hother
    cases hfp : findPost st.posts pid with
    | none => simp [revokePreviewToken, hfp] at h
    | some p0 =>
      simp only [revokePreviewToken, hfp, Except.ok.injEq] at h
      subst h
      refine findByPreview_none ?_
      intro q hq
      obtain ⟨q0, hq0, hqeq⟩ := List.mem_map.mp hq
      by_cases h0 : q0.id = pid
      · rw [if_pos h0] at hqeq
        subst hqeq
        simp [previewMatches]
      · rw [if_neg h0] at hqeq
        subst hqeq
        exact hother q0 hq0 h0

/-- Closed instance of `C7_preview_resolve`: a draft post with a valid
enabled token resolves; after revoking, the token is cleared and the old
value resolves to not-found. -/
theorem C7_preview_resolve_witness :
    c7DraftPost ∈ c7Store.posts ∧
    (getPostByPreviewToken c7Store "sec").isSome = true ∧
    c7RevokedPost.preview =
      some { token := none, enabled := false, createdAt := some 9 } ∧
    getPostByPreviewToken c7Revoked "sec" = none :=
  ⟨(C7_preview_resolve.1 c7Store "sec" c7DraftPost rfl).1,
   C7_preview_resolve.2.1 c7Store "sec" ⟨c7DraftPost, by decide, by decide⟩,
   C7_preview_resolve.2.2.1 c7Store c7Revoked "p1" 9 rfl c7RevokedPost (by decide) rfl,
   C7_preview_resolve.2.2.2 c7Store c7Revoked "p1" 9 "sec" rfl (by decide)⟩

/-! ## C6: availability of retired slugs -/

/-- A member holding the slug as live slug makes the any-status slug query
succeed. -/
theorem findBySlugAny_isSome {l : List Post} {s : String}
    (h : ∃ p ∈ l, p.slug = s) : ∃ q, findBySlugAny l s = some q := by
  induction l with
  | nil => simp at h
  | cons q qs ih =>
    by_cases hq : q.slug = s
    · exact ⟨q, by simp [findBySlugAny, hq]⟩
    · obtain ⟨p, hp, hps⟩ := h
      rcases List.mem_cons.mp hp with rfl | hp2
      · exact absurd hps hq
      · obtain ⟨r, hr⟩ := ih ⟨p, hp2, hps⟩
        exact ⟨r, by simp [findBySlugAny, hq, hr]⟩

/-- With no member holding the slug as live slug the query fails. -/
theorem findBySlugAny_none {l : List Post} {s : String}
    (h : ∀ p ∈ l, p.slug ≠ s) : findBySlugAny l s = none := by
  induction l with
  | nil => simp [findBySlugAny]
  | cons q qs ih =>
    have hq : q.slug ≠ s := h q (List.mem_cons_self q qs)
    simp only [findBySlugAny, if_neg hq]
    exact ih (fun p hp => h p (List.mem_cons_of_mem q hp))

/-- C6 (amended).  `createPost` fails with the slug-conflict error exactly
against live slugs: when some existing post holds the normalized slug as
its live slug the creation is rejected, but the retired-slug sets are not
consulted — a slug still referenced in the `oldSlugs` of an existing post
can be claimed as a new post's live slug.  (The idempotence hypothesis on
`normalizeSlug` discharges the double normalization in the source.) -/
theorem C6_only_live_slugs_conflict :
    (∀ (st : Store) (d : PostData) (now : Nat) (nid : String),
      normalizeSlug (normalizeSlug d.slug) = normalizeSlug d.slug →
      (∃ p ∈ st.posts, p.slug = normalizeSlug d.slug) →
      createPost st d now nid = Except.error "A post with this slug already exists") ∧
    (∀ (st : Store) (d : PostData) (now : Nat) (nid : String) (q : Post),
      normalizeSlug (normalizeSlug d.slug) = normalizeSlug d.slug →
      (∀ p ∈ st.posts, p.slug ≠ normalizeSlug d.slug) →
      q ∈ st.posts → normalizeSlug d.slug ∈ q.oldSlugs →
      ∃ st2, createPost st d now nid = Except.ok (st2, nid)) := by
  constructor
  · intro st d now nid hn hex
    have hav : isSlugAvailable st (normalizeSlug d.slug) none = false := by
      unfold isSlugAvailable
      rw [hn]
      obtain ⟨q, hq⟩ := findBySlugAny_isSome hex
      rw [hq]
    simp [createPost, hav]
  · intro st d now nid q hn hall hq hold
    have hav : isSlugAvailable st (normalizeSlug d.slug) none = true := by
      unfold isSlugAvailable
      rw [hn, findBySlugAny_none hall]
    refine ⟨{ posts := st.posts ++
                [{ id := nid, title := d.title, slug := normalizeSlug d.slug,
                   oldSlugs := [], excerpt := d.excerpt, content := d.content,
                   status := d.status,
                   publishedAt := (if d.status = Status.published then some now else none),
                   createdAt := some now, updatedAt := some now, preview := none }],
              versions := st.versions }, ?_⟩
    simp [createPost, hav]

/-- Document lookup commutes with the by-id map performed by
`updatePostDoc`, provided the update preserves the id. -/
theorem findPost_map (l : List Post) (pid : String) (f : Post → Post)
    (hf : ∀ q, (f q).id = q.id) :
    findPost (l.map (fun q => if q.id = pid then f q else q)) pid =
      (findPost l pid).map f := by
  induction l with
  | nil => simp [findPost]
  | cons q qs ih =>
    by_cases h : q.id = pid
    · simp [findPost, h, hf q]
    · simp [findPost, h, ih]

/-- C6 counterexample.  The retired slug `a` is still referenced by
`c6Existing`, yet creating a new post with live slug `a` succeeds instead
of failing with a conflict: the store afterwards holds live slugs `b`
(the old post) and `a` (the new one). -/
theorem C6_counterexample :
    "a" ∈ c6Existing.oldSlugs ∧ c6Result = some (["b", "a"], "p2") := by
  decide

/-- Closed instance of `C6_only_live_slugs_conflict`: a live-slug
collision is rejected; claiming a retired slug succeeds. -/
theorem C6_only_live_slugs_conflict_witness :
    createPost demoPubStore c6TakenData 5 "p2" =
      Except.error "A post with this slug already exists" ∧
    createPost c6Store c6NewData 5 "p2" = Except.ok (c6CreatedStore, "p2") := by
  refine ⟨C6_only_live_slugs_conflict.1 demoPubStore c6TakenData 5 "p2" (by decide)
      ⟨demoPubPost, by decide, by decide⟩, ?_⟩
  obtain ⟨st2, h⟩ := C6_only_live_slugs_conflict.2 c6Store c6NewData 5 "p2" c6Existing
    (by decide) (by decide) (by decide) (by decide)
  have he : c6CreatedStore = st2 := by
    unfold c6CreatedStore
    rw [h]
  rw [he]
  exact h

/-! ## C8: restoring a version -/

/-- C8 (amended).  When the post and the version exist and the log is
below the retention cap, `restoreVersion` appends exactly one new
"Before restore" snapshot of the pre-restore state (deleting and
reordering nothing, in particular not the restored-from version), copies
the editable fields of the version onto the post, sets `updatedAt`, and
leaves `publishedAt` — and every other post and field — untouched.  At the
cap the embedded `createVersion` evicts the oldest version, which is the
content of the counterexample. -/
theorem C8_restore_behaviour (st : Store) (pid vid : String) (p : Post) (v : Version)
    (snapNow : Nat) (snapId : String) (updNow : Nat)
    (hp : findPost st.posts pid = some p)
    (hv : findVersion (getVers st.versions pid) vid = some v)
    (hlen : (getVers st.versions pid).length + 1 ≤ MAX_VERSIONS) :
    ∃ st2, restoreVersion st pid vid snapNow snapId updNow = Except.ok st2 ∧
      getVers st2.versions pid =
        getVers st.versions pid ++
          [{ id := snapId, title := p.title, slug := p.slug, excerpt := p.excerpt,
             content := p.content, status := p.status, createdAt := snapNow,
             note := some "Before restore" }] ∧
      findPost st2.posts pid = some
        { p with title := v.title, slug := v.slug, excerpt := v.excerpt,
                 content := v.content, status := v.status,
                 updatedAt := some updNow } ∧
      (∀ q ∈ st.posts, q.id ≠ pid → q ∈ st2.posts) := by
  have hcv : createVersion st pid (some "Before restore") snapNow snapId =
      Except.ok ({ st with
                   versions := setVers st.versions pid
                     (getVers st.versions pid ++
                       [{ id := snapId, title := p.title, slug := p.slug,
                          excerpt := p.excerpt, content := p.content,
                          status := p.status, createdAt := snapNow,
                          note := some "Before restore" }]) }, snapId) := by
    simp only [createVersion, hp]
    rw [if_neg ?_]
    rw [List.length_insertionSort]
    simp only [List.length_append, List.length_singleton]
    omega
  have hres : restoreVersion st pid vid snapNow snapId updNow =
      Except.ok (updatePostDoc
        { st with
          versions := setVers st.versions pid
            (getVers st.versions pid ++
              [{ id := snapId, title := p.title, slug := p.slug,
                 excerpt := p.excerpt, content := p.content,
                 status := p.status, createdAt := snapNow,
                 note := some "Before restore" }]) } pid
        (fun cur =>
          { cur with title := v.title, slug := v.slug, excerpt := v.excerpt,
                     content := v.content, status := v.status,
                     updatedAt := some updNow })) := by
    simp only [restoreVersion, hp, hv, hcv]
  refine ⟨_, hres, ?_, ?_, ?_⟩
  · simp only [updatePostDoc, getVers_setVers]
  · simp only [updatePostDoc]
    rw [findPost_map st.posts pid
      (fun cur =>
        { cur with title := v.title, slug := v.slug, excerpt := v.excerpt,
                   content := v.content, status := v.status,
                   updatedAt := some updNow })
      (fun q => rfl), hp]
    rfl
  · intro q hq hne
    simp only [updatePostDoc, List.mem_map]
    exact ⟨q, hq, by rw [if_neg hne]⟩

/-- C8 counterexample.  On a post whose log already holds 20 versions,
restoring the oldest version `w0` succeeds but deletes `w0` itself: the
"Before restore" snapshot pushes the log over the cap and the embedded
eviction removes the oldest entry. -/
theorem C8_counterexample :
    (findVersion (getVers c8Store.versions "p1") "w0").isSome = true ∧
    (getVers c8Store.versions "p1").length = 20 ∧
    c8After = some none := by
  decide

/-- Closed instance of `C8_restore_behaviour` on a one-version log. -/
theorem C8_restore_behaviour_witness :
    restoreVersion c8SmallStore "p1" "w0" 100 "snap" 101 = Except.ok c8SmallAfter ∧
    getVers c8SmallAfter.versions "p1" =
      getVers c8SmallStore.versions "p1" ++
        [{ id := "snap", title := demoPubPost.title, slug := demoPubPost.slug,
           excerpt := demoPubPost.excerpt, content := demoPubPost.content,
           status := demoPubPost.status, createdAt := 100,
           note := some "Before restore" }] ∧
    findPost c8SmallAfter.posts "p1" = some
      { demoPubPost with
        title := (mkDemoVer 0).title, slug := (mkDemoVer 0).slug,
        excerpt := (mkDemoVer 0).excerpt, content := (mkDemoVer 0).content,
        status := (mkDemoVer 0).status, updatedAt := some 101 } := by
  obtain ⟨st2, h1, h2, h3, _⟩ := C8_restore_behaviour c8SmallStore "p1" "w0" demoPubPost
    (mkDemoVer 0) 100 "snap" 101 (by decide) (by decide) (by decide)
  have he : c8SmallAfter = st2 := by
    unfold c8SmallAfter
    rw [h1]
  rw [he]
  exact ⟨h1, h2, h3⟩

/-! ## C5: renaming a slug twice -/

/-- A slug change on a single-post store: the update succeeds (the new
normalized slug collides with nothing), the previous live slug is appended
to `oldSlugs` (it was not yet present), and `updatedAt` is set; all other
fields are untouched. -/
theorem updatePost_rename_single (p : Post) (vs : List (String × List Version))
    (s : String) (now : Nat)
    (hnorm : normalizeSlug s = s) (hs : s ≠ "") (hchg : s ≠ p.slug)
    (hcur : p.slug ≠ "") (hold : p.slug ∉ p.oldSlugs) :
    updatePost ⟨[p], vs⟩ p.id ⟨none, some s, none, none, none⟩ now =
      Except.ok ⟨[renamed p s now], vs⟩ := by
  simp [updatePost, findPost, isSlugAvailable, findBySlugAny, commitUpdate,
    updatePostDoc, renamed, hnorm, hs, hchg, Ne.symm hchg, hcur, hold]

/-- C5.  Renaming the live slug of a post twice (A to B to C, all distinct
normalized non-empty slugs, A being the starting live slug of the post):
each rename retires the previous live slug by an idempotent append to
`oldSlugs`, afterwards the only live slug of the post is C with retired
set {A, B}, resolving A or B yields a single-hop redirect carrying the
post (whose current slug is C), and resolving C returns the content
directly. -/
theorem C5_rename_twice (p : Post) (vs : List (String × List Version))
    (B C : String) (now1 now2 : Nat)
    (hpub : p.status = Status.published)
    (hA : normalizeSlug p.slug = p.slug) (hB : normalizeSlug B = B)
    (hC : normalizeSlug C = C)
    (hAne : p.slug ≠ "") (hBne : B ≠ "") (hCne : C ≠ "")
    (hAB : p.slug ≠ B) (hAC : p.slug ≠ C) (hBC : B ≠ C)
    (holdA : p.slug ∉ p.oldSlugs) (holdB : B ∉ p.oldSlugs) :
    updatePost ⟨[p], vs⟩ p.id ⟨none, some B, none, none, none⟩ now1 =
      Except.ok ⟨[renamed p B now1], vs⟩ ∧
    updatePost ⟨[renamed p B now1], vs⟩ p.id ⟨none, some C, none, none, none⟩ now2 =
      Except.ok ⟨[renamed (renamed p B now1) C now2], vs⟩ ∧
    (renamed (renamed p B now1) C now2).slug = C ∧
    (renamed (renamed p B now1) C now2).oldSlugs = (p.oldSlugs ++ [p.slug]) ++ [B] ∧
    resolvePost ⟨[renamed (renamed p B now1) C now2], vs⟩ p.slug =
      ResolveResult.redirect (renamed (renamed p B now1) C now2) ∧
    resolvePost ⟨[renamed (renamed p B now1) C now2], vs⟩ B =
      ResolveResult.redirect (renamed (renamed p B now1) C now2) ∧
    resolvePost ⟨[renamed (renamed p B now1) C now2], vs⟩ C =
      ResolveResult.content (renamed (renamed p B now1) C now2) := by
  have holdB2 : B ∉ (renamed p B now1).oldSlugs := by
    intro hmem
    rcases List.mem_append.mp hmem with h1 | h1
    · exact holdB h1
    · exact (Ne.symm hAB) (List.mem_singleton.mp h1)
  refine ⟨?_, ?_, ?_, ?_, ?_, ?_, ?_⟩
  · exact updatePost_rename_single p vs B now1 hB hBne (Ne.symm (Ne.symm hAB).symm) hAne holdA
  · exact updatePost_rename_single (renamed p B now1) vs C now2 hC hCne (Ne.symm hBC) hBne holdB2
  · rfl
  · rfl
  · simp [resolvePost, getPostBySlug, getPostByOldSlug, findBySlugPub,
      findByOldSlugPub, renamed, hA, hpub, Ne.symm hAC, List.mem_append,
      List.mem_singleton]
  · simp [resolvePost, getPostBySlug, getPostByOldSlug, findBySlugPub,
      findByOldSlugPub, renamed, hB, hpub, Ne.symm hBC, List.mem_append,
      List.mem_singleton]
  · simp [resolvePost, getPostBySlug, getPostByOldSlug, findBySlugPub,
      findByOldSlugPub, renamed, hC, hpub]

/-- Closed instance of `C5_rename_twice`: slug `a` renamed to `b` then
`c`. -/
theorem C5_rename_twice_witness :
    updatePost ⟨[c5Post], []⟩ c5Post.id ⟨none, some "b", none, none, none⟩ 10 =
      Except.ok ⟨[renamed c5Post "b" 10], []⟩ ∧
    updatePost ⟨[renamed c5Post "b" 10], []⟩ c5Post.id
        ⟨none, some "c", none, none, none⟩ 20 =
      Except.ok ⟨[renamed (renamed c5Post "b" 10) "c" 20], []⟩ ∧
    (renamed (renamed c5Post "b" 10) "c" 20).slug = "c" ∧
    (renamed (renamed c5Post "b" 10) "c" 20).oldSlugs =
      (c5Post.oldSlugs ++ [c5Post.slug]) ++ ["b"] ∧
    resolvePost ⟨[renamed (renamed c5Post "b" 10) "c" 20], []⟩ c5Post.slug =
      ResolveResult.redirect (renamed (renamed c5Post "b" 10) "c" 20) ∧
    resolvePost ⟨[renamed (renamed c5Post "b" 10) "c" 20], []⟩ "b" =
      ResolveResult.redirect (renamed (renamed c5Post "b" 10) "c" 20) ∧
    resolvePost ⟨[renamed (renamed c5Post "b" 10) "c" 20], []⟩ "c" =
      ResolveResult.content (renamed (renamed c5Post "b" 10) "c" 20) :=
  C5_rename_twice c5Post [] "b" "c" 10 20 rfl (by decide) (by decide) (by decide)
    (by decide) (by decide) (by decide) (by decide) (by decide) (by decide)
    (by decide) (by decide)

end MyCigars
